import Mathlib

/-!
# Shallow embedding of `left_right_struct`

A sequential (single-thread-interleaving-free) embedding of the
`left_right_struct` crate: a left-right style concurrency primitive with one
writer handle, clonable reader handles, a lock-free singly linked registry of
per-reader nodes, epoch-based quiescence, and double buffering.

Correspondence with the source:
* `ReadHandleInner` (src/reader/read_handle_inner.rs) becomes `Node`:
  buffers live in `Sys.bufs` and are named by indices, shared
  allocation-owner counters live in `Sys.counters`, nodes live in
  `Sys.nodes`; an atomic pointer becomes an index, the null placeholder
  pointer becomes `none`.
* `WriteHandle` (src/write_handle.rs), `ReadHandle`
  (src/reader/read_handle.rs) and `Guard` (src/reader/guard.rs) become
  structures holding indices into the shared state `Sys`.
* The `Mutator` trait (src/mutator.rs) becomes a structure of functions.
* In the sequential embedding a compare-and-swap never observes interference,
  so each CAS retry loop runs its success path; list walks are given explicit
  fuel and return `none` when the fuel runs out (which cannot happen on the
  acyclic lists the protocol builds); the writer's quiescence spin-wait
  (`wait_epoch_counters`) can never be released by another thread, so a spin
  whose entry condition holds is modelled as divergence (`none`), and
  `abort()` in `reference`/`clone_as_ptr` is likewise modelled as `none`.
-/

namespace LeftRightStruct

/-- `isize::MAX as usize` on a 64-bit platform, the defensive reference-count
limit `MAX_REFCOUNT` used by both `ReadHandle` and `ReadHandleInner`. -/
def MAX_REFCOUNT : Nat := 2 ^ 63 - 1

/-- One reader node (`ReadHandleInner<T>` in the source).  `reader_pointer` is
the buffer index currently visible through this node (`none` models the null
placeholder used during `clone_as_ptr`); `reader_counter` is the index of the
shared allocation-owner counter of its clone lineage; `next` is the index of
the successor node in the registry list. -/
structure Node where
  reader_pointer : Option Nat
  epoch_counter : Nat
  is_active : Bool
  reader_counter : Nat
  next : Option Nat
  deriving Repr, DecidableEq

/-- The shared mutable state: the buffer store, the reader-node store and the
store of shared allocation-owner counters.  Raw pointers of the source become
indices into these stores. -/
structure Sys (V : Type) where
  bufs : List V
  nodes : List Node
  counters : List Nat
  deriving Repr, DecidableEq

/-- `ReadHandle<T>`: one node index plus the thread-local (non-shared)
re-entrant read counter (`ref_counter : Cell<usize>`). -/
structure ReadHandle where
  inner : Nat
  ref_counter : Nat
  deriving Repr, DecidableEq

/-- `WriteHandle<T>`: the two buffer indices, the staged operation log and the
optional reference to the root of the reader-node list. -/
structure WriteHandle (Op : Type) where
  writer_pointer : Nat
  reader_pointer : Nat
  operations_log : List Op
  read_handle_inner : Option Nat
  deriving Repr, DecidableEq

/-- `Guard`: holds the borrow taken at acquisition time, i.e. the buffer index
loaded from the node's `reader_pointer` by `new_guard`; it holds no reference
to the node it was acquired from. -/
structure Guard where
  buf : Option Nat
  deriving Repr, DecidableEq

/-- The `Mutator` trait: how an operation mutates a value and how it extends a
replay log. -/
structure Mutator (V Op : Type) where
  apply_operation : V → Op → V
  mutate_log : Op → List Op → List Op

/-- The trait's provided `mutate` method: `apply_operation` first, then
`mutate_log`, returning the new value and the new log. -/
def Mutator.mutate {V Op : Type} (M : Mutator V Op) (v : V) (op : Op)
    (operations_log : List Op) : V × List Op :=
  (M.apply_operation v op, M.mutate_log op operations_log)

/-- Update the element at index `i` by `f`; out-of-range indices leave the
list unchanged (an out-of-range index corresponds to a dangling raw pointer,
which the protocol never produces). -/
def listModify {α : Type} (l : List α) (i : Nat) (f : α → α) : List α :=
  match l.get? i with
  | none => l
  | some a => l.set i (f a)

/-- Update node `i` of the state by `f`. -/
def Sys.setNode {V : Type} (s : Sys V) (i : Nat) (f : Node → Node) : Sys V :=
  { s with nodes := listModify s.nodes i f }

/-- The buffer index node `i` currently reads through. -/
def Sys.nodePtr {V : Type} (s : Sys V) (i : Nat) : Option Nat :=
  (s.nodes.get? i).bind (·.reader_pointer)

/-- The epoch counter of node `i` (`ReadHandleInner::get_epoch`). -/
def Sys.epochOf {V : Type} (s : Sys V) (i : Nat) : Option Nat :=
  (s.nodes.get? i).map (·.epoch_counter)

/-- The liveness flag of node `i` (`ReadHandleInner::is_active`); a missing
node counts as dead. -/
def Sys.isActive {V : Type} (s : Sys V) (i : Nat) : Bool :=
  match s.nodes.get? i with
  | none => false
  | some nd => nd.is_active

/-- The value currently visible through node `i`: dereference its
`reader_pointer` in the buffer store. -/
def Sys.readValue {V : Type} (s : Sys V) (i : Nat) : Option V :=
  (s.nodePtr i).bind s.bufs.get?

/-- `ReadHandleInner::increase_counter`: one `fetch_add(1)` on the epoch. -/
def Sys.increaseCounter {V : Type} (s : Sys V) (i : Nat) : Sys V :=
  s.setNode i (fun nd => { nd with epoch_counter := nd.epoch_counter + 1 })

/-- `ReadHandleInner::swap_pointer`: store a new buffer index in the node's
`reader_pointer`. -/
def Sys.swapPointer {V : Type} (s : Sys V) (i : Nat) (p : Nat) : Sys V :=
  s.setNode i (fun nd => { nd with reader_pointer := some p })

/-- `ReadHandleInner::set_inactive`, run by `Drop for ReadHandle`. -/
def Sys.setInactive {V : Type} (s : Sys V) (i : Nat) : Sys V :=
  s.setNode i (fun nd => { nd with is_active := false })

/-- `WriteHandle::as_ref`: the writer's own current value. -/
def WriteHandle.as_ref {V Op : Type} (wh : WriteHandle Op) (s : Sys V) :
    Option V :=
  s.bufs.get? wh.writer_pointer

/-- `WriteHandle::mutate`: `data.mutate(&operation, &mut self.operations_log)`
(the trait method: `apply_operation`, then `mutate_log`), followed by
`self.operations_log.push(operation)`.  The `none` branch is the model image
of dereferencing a dangling writer pointer, which the protocol never does. -/
def WriteHandle.mutate {V Op : Type} (M : Mutator V Op) (wh : WriteHandle Op)
    (s : Sys V) (op : Op) : WriteHandle Op × Sys V :=
  match s.bufs.get? wh.writer_pointer with
  | none => (wh, s)
  | some data =>
    let step := M.mutate data op wh.operations_log
    ({ wh with operations_log := step.2 ++ [op] },
     { s with bufs := s.bufs.set wh.writer_pointer step.1 })

/-- `ReadHandle::reference`: abort (modelled `none`) when the thread-local
counter exceeds `MAX_REFCOUNT`; on the outermost read, bump the node's epoch;
then record the new nesting depth and build a `Guard` capturing the node's
currently visible buffer (`new_guard` / `load_pointer`). -/
def ReadHandle.reference {V : Type} (rh : ReadHandle) (s : Sys V) :
    Option (Guard × ReadHandle × Sys V) :=
  let refs := rh.ref_counter
  if refs > MAX_REFCOUNT then
    none
  else
    let s1 := if refs = 0 then s.increaseCounter rh.inner else s
    let g : Guard := { buf := s1.nodePtr rh.inner }
    some (g, { rh with ref_counter := refs + 1 }, s1)

/-- The `drop_callback` installed by `new_guard`, run when a `Guard` is
dropped: decrement the handle's nesting counter and, when it reaches zero,
bump the node's epoch again. -/
def guardDrop {V : Type} (rh : ReadHandle) (s : Sys V) : ReadHandle × Sys V :=
  let refs := rh.ref_counter - 1
  let s1 := if refs = 0 then s.increaseCounter rh.inner else s
  ({ rh with ref_counter := refs }, s1)

/-- `Deref for Guard`: returns the borrow captured at acquisition. -/
def Guard.deref {V : Type} (g : Guard) (s : Sys V) : Option V :=
  g.buf.bind s.bufs.get?

/-- `AsRef for Guard`: same body as `Deref` in the source. -/
def Guard.as_ref {V : Type} (g : Guard) (s : Sys V) : Option V :=
  g.buf.bind s.bufs.get?

/-- `ReadHandleInner::clone_as_ptr`: `fetch_add(1)` on the shared
allocation-owner counter (aborting, modelled `none`, past `MAX_REFCOUNT`),
allocate a fresh node carrying the null placeholder pointer and the observed
`next`, link it in with a compare-and-swap on `self.next` (which, sequentially,
succeeds on the first attempt), then resolve the placeholder with a single
compare-and-swap from null to the origin's currently observed pointer.
Returns the new state and the new node's index. -/
def Sys.cloneAsPtr {V : Type} (s : Sys V) (i : Nat) : Option (Sys V × Nat) :=
  match s.nodes.get? i with
  | none => none
  | some nd =>
    let old_next := nd.next
    match s.counters.get? nd.reader_counter with
    | none => none
    | some old_count =>
      let s1 : Sys V :=
        { s with counters := listModify s.counters nd.reader_counter (· + 1) }
      if old_count > MAX_REFCOUNT then
        none
      else
        let j := s1.nodes.length
        let newNode : Node :=
          { reader_pointer := none, epoch_counter := 0, is_active := true,
            reader_counter := nd.reader_counter, next := old_next }
        let s2 : Sys V := { s1 with nodes := s1.nodes ++ [newNode] }
        let s3 := s2.setNode i (fun n => { n with next := some j })
        let originPtr : Option Nat :=
          match s3.nodes.get? i with
          | some n2 => n2.reader_pointer
          | none => none
        let s4 := s3.setNode j (fun n =>
          if n.reader_pointer = none then { n with reader_pointer := originPtr }
          else n)
        some (s4, j)

/-- `Clone for ReadHandle`: a fresh handle over `clone_as_ptr`'s node, with a
zeroed thread-local nesting counter. -/
def ReadHandle.clone {V : Type} (rh : ReadHandle) (s : Sys V) :
    Option (ReadHandle × Sys V) :=
  (s.cloneAsPtr rh.inner).map
    (fun p => ({ inner := p.2, ref_counter := 0 }, p.1))

/-- `Drop for ReadHandle`: mark the node inactive; reclamation is deferred. -/
def ReadHandle.drop {V : Type} (rh : ReadHandle) (s : Sys V) : Sys V :=
  s.setInactive rh.inner

/-- The node ids reachable from `start` along `next` links, or `none` when the
fuel runs out (the image of a cyclic or dangling chain). -/
def Sys.chain {V : Type} (s : Sys V) : Nat → Option Nat → Option (List Nat)
  | _, none => some []
  | 0, some _ => none
  | fuel + 1, some i =>
    match s.nodes.get? i with
    | none => none
    | some nd => (s.chain fuel nd.next).map (i :: ·)

/-- `WriteHandle::remove_first_dead_readers`: advance from the held root past
inactive nodes and return the first active one (or `none` when every reachable
node is dead); `none` at the outer level means the fuel ran out. -/
def removeFirstDeadReaders {V : Type} (s : Sys V) :
    Nat → Option Nat → Option (Option Nat)
  | _, none => some none
  | 0, some _ => none
  | fuel + 1, some i =>
    match s.nodes.get? i with
    | none => none
    | some nd =>
      if nd.is_active then some (some i)
      else removeFirstDeadReaders s fuel nd.next

/-- `WriteHandle::update_reader_pointers`: walk the list from the root,
swapping every node's `reader_pointer` to the back buffer's index. -/
def updateReaderPointers {V : Type} (newPtr : Nat) :
    Sys V → Nat → Option Nat → Option (Sys V)
  | s, _, none => some s
  | _, 0, some _ => none
  | s, fuel + 1, some i =>
    match s.nodes.get? i with
    | none => none
    | some nd => updateReaderPointers newPtr (s.swapPointer i newPtr) fuel nd.next

/-- `WriteHandle::get_epoch_counters`: walk the list recording, for every node
whose epoch is odd, its identity and current epoch (the snapshot set). -/
def getEpochCounters {V : Type} (s : Sys V) :
    Nat → Option Nat → Option (List (Nat × Nat))
  | _, none => some []
  | 0, some _ => none
  | fuel + 1, some i =>
    match s.nodes.get? i with
    | none => none
    | some nd =>
      (getEpochCounters s fuel nd.next).map (fun rest =>
        if nd.epoch_counter % 2 ≠ 0 then (i, nd.epoch_counter) :: rest else rest)

/-- The inner pruning loop of `wait_epoch_counters`: while node `i`'s
successor is inactive, compare-and-swap `i.next` to the successor's own
`next` (sequentially the CAS always succeeds, so the loop keeps going until it
meets an active successor or the end of the list). -/
def pruneNext {V : Type} (i : Nat) : Sys V → Nat → Option (Sys V)
  | _, 0 => none
  | s, fuel + 1 =>
    match s.nodes.get? i with
    | none => none
    | some nd =>
      match nd.next with
      | none => some s
      | some j =>
        match s.nodes.get? j with
        | none => none
        | some ndj =>
          if ndj.is_active then some s
          else pruneNext i (s.setNode i (fun n => { n with next := ndj.next })) fuel

/-- `WriteHandle::wait_epoch_counters`: walk the list; at each node first
prune its dead successors, then, if the node is in the snapshot set, spin
until its epoch moves off the snapshotted value.  Sequentially no other
thread can move the epoch, so a spin whose entry condition holds never exits:
that case is modelled as divergence (`none`). -/
def waitEpochCounters {V : Type} (ec : List (Nat × Nat)) :
    Sys V → Nat → Option Nat → Option (Sys V)
  | s, _, none => some s
  | _, 0, some _ => none
  | s, fuel + 1, some i =>
    match pruneNext i s (s.nodes.length + 1) with
    | none => none
    | some s1 =>
      match s1.nodes.get? i with
      | none => none
      | some nd =>
        match ec.lookup i with
        | some e =>
          if nd.epoch_counter = e then none
          else waitEpochCounters ec s1 fuel nd.next
        | none => waitEpochCounters ec s1 fuel nd.next

/-- `WriteHandle::publish`: return unchanged when no reader handle was ever
produced or no operation is staged; otherwise prune dead head nodes, broadcast
the back buffer to every node, snapshot the odd epochs, run the quiescence
barrier (pruning on the way), swap the writer's two buffer indices, and drain
and replay the staged log onto the buffer that just became the back buffer.
`none` models nontermination (a spin that can never be released, or a cyclic
chain exhausting its fuel — neither arises in protocol-generated states). -/
def WriteHandle.publish {V Op : Type} (M : Mutator V Op) (wh : WriteHandle Op)
    (s : Sys V) : Option (WriteHandle Op × Sys V) :=
  match wh.read_handle_inner with
  | none => some (wh, s)
  | some _ =>
    if wh.operations_log.isEmpty then some (wh, s)
    else
      let fuel := s.nodes.length + 1
      (removeFirstDeadReaders s fuel wh.read_handle_inner).bind fun root =>
      (updateReaderPointers wh.writer_pointer s fuel root).bind fun s1 =>
      (getEpochCounters s1 fuel root).bind fun ec =>
      (waitEpochCounters ec s1 fuel root).bind fun s2 =>
      some ({ wh with read_handle_inner := root,
                      reader_pointer := wh.writer_pointer,
                      writer_pointer := wh.reader_pointer,
                      operations_log := [] },
            { s2 with bufs := (listModify s2.bufs wh.reader_pointer
                (fun d => wh.operations_log.foldl M.apply_operation d)) })

/-- `create_handles_from_clone` / `create_handles_from_default` via
`create_handles_from_raw`: two buffers in identical state `v` (index 0 read
through by the root node, index 1 owned by the writer), one root node with
epoch 0, active, a fresh shared counter at 1 and no successor. -/
def createHandles {V : Type} (Op : Type) (v : V) :
    ReadHandle × WriteHandle Op × Sys V :=
  ({ inner := 0, ref_counter := 0 },
   { writer_pointer := 1, reader_pointer := 0, operations_log := [],
     read_handle_inner := some 0 },
   { bufs := [v, v],
     nodes := [{ reader_pointer := some 0, epoch_counter := 0,
                 is_active := true, reader_counter := 0, next := none }],
     counters := [1] })

/-- A sequence of `WriteHandle::mutate` calls. -/
def runMutates {V Op : Type} (M : Mutator V Op) :
    WriteHandle Op × Sys V → List Op → WriteHandle Op × Sys V :=
  List.foldl (fun p op => WriteHandle.mutate M p.1 p.2 op)

/-- `Drop for ReadHandleInner`, restricted to the shared allocation-owner
counter and the freeing decision: the buffer is freed exactly when
`compare_exchange(1, 0)` on the counter succeeds; on failure the counter is
left unchanged (the failure path performs no decrement).  Returns the counter
after the drop and whether the buffer was freed. -/
def dropReadHandleInner (counter : Nat) : Nat × Bool :=
  if counter = 1 then (0, true) else (counter, false)

/-- Destroy `k` nodes of one clone lineage sharing a counter currently at
`counter`: returns the final counter value and how many times the pointed-to
buffer was freed. -/
def dropNodes : Nat → Nat → Nat × Nat
  | 0, counter => (counter, 0)
  | k + 1, counter =>
    let step := dropReadHandleInner counter
    let rest := dropNodes k step.1
    (rest.1, (if step.2 then 1 else 0) + rest.2)

/-! ## Basic lemmas about the stores -/

theorem listModify_length {α : Type} (l : List α) (i : Nat) (f : α → α) :
    (listModify l i f).length = l.length := by
  unfold listModify
  cases h : l.get? i <;> simp

theorem get?_listModify_self {α : Type} (l : List α) (i : Nat) (f : α → α) :
    (listModify l i f).get? i = (l.get? i).map f := by
  unfold listModify
  cases h : l.get? i with
  | none => simpa using h
  | some a => rw [List.get?_set_eq, h]; rfl

theorem get?_listModify_ne {α : Type} (l : List α) {i j : Nat} (f : α → α)
    (h : i ≠ j) : (listModify l i f).get? j = l.get? j := by
  unfold listModify
  cases h' : l.get? i
  · rfl
  · exact List.get?_set_ne _ _ h

theorem setNode_bufs {V : Type} (s : Sys V) (i : Nat) (f : Node → Node) :
    (s.setNode i f).bufs = s.bufs := rfl

theorem setNode_counters {V : Type} (s : Sys V) (i : Nat) (f : Node → Node) :
    (s.setNode i f).counters = s.counters := rfl

theorem setNode_length {V : Type} (s : Sys V) (i : Nat) (f : Node → Node) :
    (s.setNode i f).nodes.length = s.nodes.length :=
  listModify_length _ _ _

theorem get?_setNode_self {V : Type} (s : Sys V) (i : Nat) (f : Node → Node) :
    (s.setNode i f).nodes.get? i = (s.nodes.get? i).map f :=
  get?_listModify_self _ _ _

theorem get?_setNode_ne {V : Type} (s : Sys V) {i j : Nat} (f : Node → Node)
    (h : i ≠ j) : (s.setNode i f).nodes.get? j = s.nodes.get? j :=
  get?_listModify_ne _ _ h

/-- The `next` field of node `k`, wrapped so that a missing node is
distinguishable: this is all the list-walking functions look at. -/
def Sys.nextOf {V : Type} (s : Sys V) (k : Nat) : Option (Option Nat) :=
  (s.nodes.get? k).map (·.next)

/-- A node update by an `f` that keeps the `next` field does not change the
`next` structure. -/
theorem nextOf_setNode {V : Type} (s : Sys V) (i : Nat) (f : Node → Node)
    (hf : ∀ n, (f n).next = n.next) (k : Nat) :
    (s.setNode i f).nextOf k = s.nextOf k := by
  unfold Sys.nextOf
  rcases eq_or_ne i k with rfl | hik
  · rw [get?_setNode_self]
    cases s.nodes.get? i <;> simp [hf]
  · rw [get?_setNode_ne _ _ hik]

/-- A node update by an `f` that keeps the reader-visible fields does not
change any node's pointer, epoch or liveness. -/
theorem readerView_setNode {V : Type} (s : Sys V) (i : Nat) (f : Node → Node)
    (hp : ∀ n, (f n).reader_pointer = n.reader_pointer)
    (he : ∀ n, (f n).epoch_counter = n.epoch_counter)
    (ha : ∀ n, (f n).is_active = n.is_active) (k : Nat) :
    (s.setNode i f).nodePtr k = s.nodePtr k ∧
      (s.setNode i f).epochOf k = s.epochOf k ∧
      (s.setNode i f).isActive k = s.isActive k := by
  unfold Sys.nodePtr Sys.epochOf Sys.isActive
  rcases eq_or_ne i k with rfl | hik
  · rw [get?_setNode_self]
    cases s.nodes.get? i <;> simp [hp, he, ha]
  · rw [get?_setNode_ne _ _ hik]
    exact ⟨rfl, rfl, rfl⟩

/-- A node update by an `f` that keeps the epoch and liveness fields changes
no node's epoch or liveness. -/
theorem epochActive_setNode {V : Type} (s : Sys V) (i : Nat) (f : Node → Node)
    (he : ∀ n, (f n).epoch_counter = n.epoch_counter)
    (ha : ∀ n, (f n).is_active = n.is_active) (k : Nat) :
    (s.setNode i f).epochOf k = s.epochOf k ∧
      (s.setNode i f).isActive k = s.isActive k := by
  unfold Sys.epochOf Sys.isActive
  rcases eq_or_ne i k with rfl | hik
  · rw [get?_setNode_self]
    cases s.nodes.get? i <;> simp [he, ha]
  · rw [get?_setNode_ne _ _ hik]
    exact ⟨rfl, rfl⟩

/-- Two states with the same `next` structure produce the same chains. -/
theorem chain_ext {V : Type} {s s' : Sys V}
    (hn : ∀ k, s'.nextOf k = s.nextOf k) :
    ∀ (fuel : Nat) (r : Option Nat), s'.chain fuel r = s.chain fuel r := by
  intro fuel
  induction fuel with
  | zero => intro r; cases r <;> rfl
  | succ n ih =>
    intro r
    cases r with
    | none => rfl
    | some i =>
      have h := hn i
      unfold Sys.nextOf at h
      simp only [Sys.chain]
      cases hg : s.nodes.get? i with
      | none =>
        rw [hg, Option.map_none'] at h
        rw [Option.map_eq_none'] at h
        rw [h]
      | some nd =>
        rw [hg, Option.map_some'] at h
        rcases Option.map_eq_some'.mp h with ⟨nd', hg', hnext⟩
        rw [hg']
        simp only [hnext, ih]

/-! ## Preservation lemmas for the publish phases -/

/-- `s'` agrees with `s` on the buffer store, the counter store, the node
count, and every node's reader-visible fields; only `next` links may differ.
This is the footprint of the lazy pruning done during `publish`. -/
def Sys.SameExceptNext {V : Type} (s s' : Sys V) : Prop :=
  s'.bufs = s.bufs ∧ s'.counters = s.counters ∧
    s'.nodes.length = s.nodes.length ∧
    ∀ k, s'.nodePtr k = s.nodePtr k ∧ s'.epochOf k = s.epochOf k ∧
      s'.isActive k = s.isActive k

theorem sameExceptNext_refl {V : Type} (s : Sys V) : s.SameExceptNext s :=
  ⟨rfl, rfl, rfl, fun _ => ⟨rfl, rfl, rfl⟩⟩

theorem sameExceptNext_trans {V : Type} {s t u : Sys V}
    (h1 : s.SameExceptNext t) (h2 : t.SameExceptNext u) :
    s.SameExceptNext u := by
  obtain ⟨hb1, hc1, hl1, hk1⟩ := h1
  obtain ⟨hb2, hc2, hl2, hk2⟩ := h2
  refine ⟨hb2.trans hb1, hc2.trans hc1, hl2.trans hl1, fun k => ?_⟩
  obtain ⟨p1, e1, a1⟩ := hk1 k
  obtain ⟨p2, e2, a2⟩ := hk2 k
  exact ⟨p2.trans p1, e2.trans e1, a2.trans a1⟩

/-- A node update touching only the `next` field changes nothing a reader
observes. -/
theorem sameExceptNext_setNext {V : Type} (s : Sys V) (i : Nat)
    (x : Option Nat) :
    s.SameExceptNext (s.setNode i (fun n => { n with next := x })) :=
  ⟨rfl, rfl, setNode_length _ _ _, fun k =>
    readerView_setNode s i (fun n => { n with next := x })
      (fun _ => rfl) (fun _ => rfl) (fun _ => rfl) k⟩

/-- The inner pruning loop of `wait_epoch_counters` only rewrites `next`
links. -/
theorem pruneNext_same {V : Type} (i : Nat) :
    ∀ (fuel : Nat) (s s' : Sys V), pruneNext i s fuel = some s' →
      s.SameExceptNext s' := by
  intro fuel
  induction fuel with
  | zero => intro s s' h; exact absurd h (by simp [pruneNext])
  | succ n ih =>
    intro s s' h
    simp only [pruneNext] at h
    split at h
    · exact absurd h (by simp)
    · split at h
      · simp only [Option.some.injEq] at h
        subst h
        exact sameExceptNext_refl _
      · split at h
        · exact absurd h (by simp)
        · split at h
          · simp only [Option.some.injEq] at h
            subst h
            exact sameExceptNext_refl _
          · exact sameExceptNext_trans (sameExceptNext_setNext s i _)
              (ih _ _ h)

/-- The quiescence walk (`wait_epoch_counters`) only rewrites `next` links:
every node's pointer, epoch and liveness, the buffers and the counters are
untouched. -/
theorem waitEpochCounters_same {V : Type} (ec : List (Nat × Nat)) :
    ∀ (fuel : Nat) (r : Option Nat) (s s' : Sys V),
      waitEpochCounters ec s fuel r = some s' → s.SameExceptNext s' := by
  intro fuel
  induction fuel with
  | zero =>
    intro r s s' h
    cases r with
    | none =>
      simp only [waitEpochCounters, Option.some.injEq] at h
      subst h
      exact sameExceptNext_refl _
    | some i => exact absurd h (by simp [waitEpochCounters])
  | succ n ih =>
    intro r s s' h
    cases r with
    | none =>
      simp only [waitEpochCounters, Option.some.injEq] at h
      subst h
      exact sameExceptNext_refl _
    | some i =>
      simp only [waitEpochCounters] at h
      split at h
      · exact absurd h (by simp)
      · rename_i s1 hp
        have hs1 := pruneNext_same i _ s s1 hp
        split at h
        · exact absurd h (by simp)
        · split at h
          · split at h
            · exact absurd h (by simp)
            · exact sameExceptNext_trans hs1 (ih _ s1 s' h)
          · exact sameExceptNext_trans hs1 (ih _ s1 s' h)

/-- The broadcast walk (`update_reader_pointers`) changes nothing but
`reader_pointer` fields: buffers, counters, node count, `next` structure,
epochs and liveness flags are untouched. -/
theorem updateReaderPointers_same {V : Type} (p : Nat) :
    ∀ (fuel : Nat) (r : Option Nat) (s s' : Sys V),
      updateReaderPointers p s fuel r = some s' →
      s'.bufs = s.bufs ∧ s'.counters = s.counters ∧
        s'.nodes.length = s.nodes.length ∧
        ∀ k, s'.nextOf k = s.nextOf k ∧ s'.epochOf k = s.epochOf k ∧
          s'.isActive k = s.isActive k := by
  intro fuel
  induction fuel with
  | zero =>
    intro r s s' h
    cases r with
    | none =>
      simp only [updateReaderPointers, Option.some.injEq] at h
      subst h
      exact ⟨rfl, rfl, rfl, fun _ => ⟨rfl, rfl, rfl⟩⟩
    | some i => exact absurd h (by simp [updateReaderPointers])
  | succ n ih =>
    intro r s s' h
    cases r with
    | none =>
      simp only [updateReaderPointers, Option.some.injEq] at h
      subst h
      exact ⟨rfl, rfl, rfl, fun _ => ⟨rfl, rfl, rfl⟩⟩
    | some i =>
      simp only [updateReaderPointers] at h
      split at h
      · exact absurd h (by simp)
      · rename_i nd hg
        obtain ⟨hb, hc, hl, hk⟩ := ih nd.next (s.swapPointer i p) s' h
        refine ⟨hb, hc, hl.trans (setNode_length _ _ _), fun k => ?_⟩
        obtain ⟨hn, he, ha⟩ := hk k
        have hview := epochActive_setNode s i
          (fun nd => { nd with reader_pointer := some p })
          (fun _ => rfl) (fun _ => rfl) k
        have hnext := nextOf_setNode s i
          (fun nd => { nd with reader_pointer := some p }) (fun _ => rfl) k
        exact ⟨hn.trans hnext, he.trans hview.1, ha.trans hview.2⟩

/-- Each write of the broadcast walk stores the same value `some p`, so a
node already holding it keeps it to the end of the walk. -/
theorem updateReaderPointers_keeps {V : Type} (p : Nat) :
    ∀ (fuel : Nat) (r : Option Nat) (s s' : Sys V) (k : Nat),
      updateReaderPointers p s fuel r = some s' → s.nodePtr k = some p →
      s'.nodePtr k = some p := by
  intro fuel
  induction fuel with
  | zero =>
    intro r s s' k h hk
    cases r with
    | none =>
      simp only [updateReaderPointers, Option.some.injEq] at h
      subst h; exact hk
    | some i => exact absurd h (by simp [updateReaderPointers])
  | succ n ih =>
    intro r s s' k h hk
    cases r with
    | none =>
      simp only [updateReaderPointers, Option.some.injEq] at h
      subst h; exact hk
    | some i =>
      simp only [updateReaderPointers] at h
      split at h
      · exact absurd h (by simp)
      · rename_i nd hg
        refine ih nd.next _ s' k h ?_
        unfold Sys.nodePtr Sys.swapPointer at *
        rcases eq_or_ne i k with rfl | hik
        · rw [get?_setNode_self, hg]
          rfl
        · rw [get?_setNode_ne _ _ hik]
          exact hk

/-- After the broadcast walk, every node of the walked chain reads through
the broadcast buffer. -/
theorem updateReaderPointers_mem {V : Type} (p : Nat) :
    ∀ (fuel : Nat) (r : Option Nat) (s s' : Sys V) (l : List Nat),
      s.chain fuel r = some l → updateReaderPointers p s fuel r = some s' →
      ∀ k ∈ l, s'.nodePtr k = some p := by
  intro fuel
  induction fuel with
  | zero =>
    intro r s s' l hch h k hk
    cases r with
    | none =>
      simp only [Sys.chain, Option.some.injEq] at hch
      subst hch
      exact absurd hk (List.not_mem_nil k)
    | some i => exact absurd hch (by simp [Sys.chain])
  | succ n ih =>
    intro r s s' l hch h k hk
    cases r with
    | none =>
      simp only [Sys.chain, Option.some.injEq] at hch
      subst hch
      exact absurd hk (List.not_mem_nil k)
    | some i =>
      simp only [Sys.chain] at hch
      simp only [updateReaderPointers] at h
      split at h
      · rename_i hg
        rw [hg] at hch
        exact absurd hch (by simp)
      · rename_i nd hg
        rw [hg] at hch
        rcases Option.map_eq_some'.mp hch with ⟨t, hct, hl⟩
        subst hl
        have hnn : ∀ k2, (s.swapPointer i p).nextOf k2 = s.nextOf k2 :=
          fun k2 => nextOf_setNode s i
            (fun nd => { nd with reader_pointer := some p }) (fun _ => rfl) k2
        have hchain' : (s.swapPointer i p).chain n nd.next = some t := by
          rw [chain_ext hnn]
          exact hct
        rcases List.mem_cons.mp hk with rfl | hkt
        · refine updateReaderPointers_keeps p n nd.next _ s' k h ?_
          unfold Sys.nodePtr Sys.swapPointer
          rw [get?_setNode_self, hg]
          rfl
        · exact ih nd.next _ s' t hchain' h k hkt

/-- `remove_first_dead_readers` over a chain of dead nodes yields the empty
root. -/
theorem removeFirstDeadReaders_allDead {V : Type} :
    ∀ (fuel : Nat) (r : Option Nat) (s : Sys V) (l : List Nat),
      s.chain fuel r = some l → (∀ k ∈ l, s.isActive k = false) →
      removeFirstDeadReaders s fuel r = some none := by
  intro fuel
  induction fuel with
  | zero =>
    intro r s l hch hdead
    cases r with
    | none => rfl
    | some i => exact absurd hch (by simp [Sys.chain])
  | succ n ih =>
    intro r s l hch hdead
    cases r with
    | none => rfl
    | some i =>
      simp only [Sys.chain] at hch
      cases hg : s.nodes.get? i with
      | none =>
        rw [hg] at hch
        exact absurd hch (by simp)
      | some nd =>
        rw [hg] at hch
        rcases Option.map_eq_some'.mp hch with ⟨t, hct, hl⟩
        subst hl
        have hdead_i : s.isActive i = false := hdead i (List.mem_cons_self i t)
        have hnd_dead : nd.is_active = false := by
          unfold Sys.isActive at hdead_i
          rw [hg] at hdead_i
          exact hdead_i
        simp only [removeFirstDeadReaders, hg, hnd_dead]
        exact ih nd.next s t hct (fun k hk => hdead k (List.mem_cons_of_mem i hk))

/-- Effect of `clone_as_ptr`: the new node is fresh (index `s.nodes.length`),
its placeholder is resolved to the origin's pointer at clone time, the
origin's own pointer and the buffer store are untouched. -/
theorem cloneAsPtr_spec {V : Type} (s : Sys V) (i : Nat) (s₂ : Sys V) (j : Nat)
    (h : s.cloneAsPtr i = some (s₂, j)) :
    s₂.nodePtr j = s.nodePtr i ∧ s₂.nodePtr i = s.nodePtr i ∧
      s₂.bufs = s.bufs ∧ j = s.nodes.length := by
  simp only [Sys.cloneAsPtr] at h
  split at h
  · exact absurd h (by simp)
  · rename_i nd hg
    split at h
    · exact absurd h (by simp)
    · rename_i c hc
      split at h
      · exact absurd h (by simp)
      · rename_i hover
        simp only [Option.some.injEq, Prod.mk.injEq] at h
        obtain ⟨hs₂, hj⟩ := h
        have hlt : i < s.nodes.length := (List.get?_eq_some.mp hg).1
        subst hs₂
        subst hj
        have hij : i ≠ s.nodes.length := Nat.ne_of_lt hlt
        constructor
        · unfold Sys.nodePtr
          rw [get?_setNode_self, get?_setNode_ne _ _ hij,
            List.get?_concat_length]
          simp only [Option.map_some', Option.some_bind, if_true]
          rw [get?_setNode_self, List.get?_append hlt, hg]
          rfl
        · refine ⟨?_, rfl, rfl⟩
          unfold Sys.nodePtr
          rw [get?_setNode_ne _ _ (Ne.symm hij), get?_setNode_self,
            List.get?_append hlt, hg]
          rfl

/-- Running a sequence of `mutate` calls on a two-buffer state whose writer
buffer is buffer 1: with the default no-op `mutate_log`, the staged log grows
by exactly the operations performed (in order) and the writer buffer is the
left fold of `apply_operation`, everything else untouched. -/
theorem runMutates_two {V Op : Type} (M : Mutator V Op)
    (Hlog : ∀ (op : Op) (l : List Op), M.mutate_log op l = l) :
    ∀ (ops acc : List Op) (b0 b1 : V) (rp : Nat) (r0 : Option Nat)
      (ns : List Node) (cs : List Nat),
      runMutates M
        ({ writer_pointer := 1, reader_pointer := rp, operations_log := acc,
           read_handle_inner := r0 },
         { bufs := [b0, b1], nodes := ns, counters := cs }) ops =
      ({ writer_pointer := 1, reader_pointer := rp,
         operations_log := acc ++ ops, read_handle_inner := r0 },
       { bufs := [b0, ops.foldl M.apply_operation b1], nodes := ns,
         counters := cs }) := by
  intro ops
  induction ops with
  | nil => intro acc b0 b1 rp r0 ns cs; simp [runMutates]
  | cons op os ih =>
    intro acc b0 b1 rp r0 ns cs
    show runMutates M
      (WriteHandle.mutate M
        { writer_pointer := 1, reader_pointer := rp, operations_log := acc,
          read_handle_inner := r0 }
        { bufs := [b0, b1], nodes := ns, counters := cs } op) os = _
    rw [show WriteHandle.mutate M
        { writer_pointer := 1, reader_pointer := rp, operations_log := acc,
          read_handle_inner := r0 }
        { bufs := [b0, b1], nodes := ns, counters := cs } op =
      ({ writer_pointer := 1, reader_pointer := rp,
         operations_log := acc ++ [op], read_handle_inner := r0 },
       { bufs := [b0, M.apply_operation b1 op], nodes := ns, counters := cs })
      from by simp [WriteHandle.mutate, Mutator.mutate, Hlog]]
    rw [ih]
    simp

/-! ## Concrete instances used by the witnesses -/

/-- The mutator of the repository's examples specialised to `Nat` values and
operations: an operation adds its amount to the value, and the log-extension
step is the default no-op (as in `impl_simple_mutator`). -/
def addMutator : Mutator Nat Nat :=
  { apply_operation := fun v op => v + op, mutate_log := fun _ l => l }

/-- The reader handle produced by constructing the handles over the value 0. -/
def initRH : ReadHandle := (createHandles Nat (0 : Nat)).1

/-- The writer handle produced by constructing the handles over the value 0. -/
def initWH : WriteHandle Nat := (createHandles Nat (0 : Nat)).2.1

/-- The shared state produced by constructing the handles over the value 0. -/
def initSys : Sys Nat := (createHandles Nat (0 : Nat)).2.2

/-! ## The claims -/

/-- C6: calling `publish` with an empty staged operation log is a no-op: the
writer handle and the whole shared state (every node's pointer, epoch, active
flag and next link, the writer's two buffer indices, both buffers' contents)
come back unchanged, so every reader handle's subsequent `reference` observes
the same value as before the call. -/
theorem publish_empty_log_noop {V Op : Type} (M : Mutator V Op)
    (wh : WriteHandle Op) (s : Sys V) (h : wh.operations_log = []) :
    WriteHandle.publish M wh s = some (wh, s) := by
  cases hri : wh.read_handle_inner <;>
    simp [WriteHandle.publish, hri, h]

/-- Witness for C6 at the concretely constructed state. -/
theorem publish_empty_log_noop_witness :
    initWH.operations_log = [] ∧
      WriteHandle.publish addMutator initWH initSys = some (initWH, initSys) :=
  ⟨rfl, publish_empty_log_noop addMutator initWH initSys rfl⟩

/-- C9: `reference` never returns an error value: it aborts (yields no guard)
exactly when the thread-local nested-read counter exceeds the platform's
maximum representable reference count, and for every counter value at or
below that maximum it returns a guard. -/
theorem reference_aborts_iff_overflow {V : Type} (rh : ReadHandle)
    (s : Sys V) :
    (rh.reference s = none ↔ MAX_REFCOUNT < rh.ref_counter) ∧
      ((rh.reference s).isSome ↔ rh.ref_counter ≤ MAX_REFCOUNT) := by
  by_cases h : MAX_REFCOUNT < rh.ref_counter
  · simp [ReadHandle.reference, h, Nat.not_le.mpr h]
  · simp [ReadHandle.reference, h, Nat.not_lt.mp h]

/-- C10: during `mutate(op)` the Mutator capability's log-extension step
receives the staged log without `op` (its result is exactly what `op` is then
pushed onto), after `mutate` returns `op` is the last element of the staged
log, and the writer buffer has `apply_operation` applied. -/
theorem mutate_log_sees_log_without_op {V Op : Type} (M : Mutator V Op)
    (wh : WriteHandle Op) (s : Sys V) (op : Op)
    (hv : wh.writer_pointer < s.bufs.length) :
    (WriteHandle.mutate M wh s op).1.operations_log =
        M.mutate_log op wh.operations_log ++ [op] ∧
      ((WriteHandle.mutate M wh s op).1.operations_log).getLast? = some op ∧
      (WriteHandle.mutate M wh s op).2.bufs.get? wh.writer_pointer =
        (s.bufs.get? wh.writer_pointer).map (M.apply_operation · op) := by
  obtain ⟨d, hd⟩ : ∃ d, s.bufs.get? wh.writer_pointer = some d :=
    ⟨s.bufs.get ⟨wh.writer_pointer, hv⟩, List.get?_eq_get hv⟩
  simp only [WriteHandle.mutate, hd]
  refine ⟨rfl, List.getLast?_concat _, ?_⟩
  rw [List.get?_set_eq, hd]
  rfl

/-- Witness for C10 at the concretely constructed state, operation 5. -/
theorem mutate_log_sees_log_without_op_witness :
    initWH.writer_pointer < initSys.bufs.length ∧
      ((WriteHandle.mutate addMutator initWH initSys 5).1.operations_log =
          addMutator.mutate_log 5 initWH.operations_log ++ [5] ∧
        ((WriteHandle.mutate addMutator initWH initSys 5).1.operations_log).getLast?
            = some 5 ∧
        (WriteHandle.mutate addMutator initWH initSys 5).2.bufs.get?
            initWH.writer_pointer =
          (initSys.bufs.get? initWH.writer_pointer).map
            (addMutator.apply_operation · 5)) :=
  ⟨by decide,
   mutate_log_sees_log_without_op addMutator initWH initSys 5 (by decide)⟩

/-- C2: `mutate` changes no reader-visible state — the node store (hence every
node's pointer, epoch and active flag) and the counter store are untouched and
every reader handle still observes the value from before the call — while the
writer's own current-value accessor reflects the operation immediately. -/
theorem mutate_frame {V Op : Type} (M : Mutator V Op) (wh : WriteHandle Op)
    (s : Sys V) (op : Op) (rh : ReadHandle)
    (hdisj : s.nodePtr rh.inner ≠ some wh.writer_pointer) :
    (WriteHandle.mutate M wh s op).2.nodes = s.nodes ∧
      (WriteHandle.mutate M wh s op).2.counters = s.counters ∧
      (WriteHandle.mutate M wh s op).2.readValue rh.inner =
        s.readValue rh.inner ∧
      (WriteHandle.mutate M wh s op).1.as_ref (WriteHandle.mutate M wh s op).2
        = (wh.as_ref s).map (M.apply_operation · op) := by
  cases hd : s.bufs.get? wh.writer_pointer with
  | none =>
    unfold WriteHandle.mutate
    rw [hd]
    exact ⟨rfl, rfl, rfl, by unfold WriteHandle.as_ref; rw [hd]; rfl⟩
  | some d =>
    unfold WriteHandle.mutate
    rw [hd]
    refine ⟨rfl, rfl, ?_, ?_⟩
    · show (s.nodePtr rh.inner).bind _ = (s.nodePtr rh.inner).bind _
      cases hp : s.nodePtr rh.inner with
      | none => rfl
      | some b =>
        have hb : b ≠ wh.writer_pointer := fun he => hdisj (by rw [hp, he])
        show (s.bufs.set wh.writer_pointer _).get? b = s.bufs.get? b
        exact List.get?_set_ne _ _ (Ne.symm hb)
    · show (s.bufs.set wh.writer_pointer _).get? wh.writer_pointer =
        (s.bufs.get? wh.writer_pointer).map (M.apply_operation · op)
      rw [List.get?_set_eq, hd]
      rfl

/-- Witness for C2 at the concretely constructed state, operation 5. -/
theorem mutate_frame_witness :
    initSys.nodePtr initRH.inner ≠ some initWH.writer_pointer ∧
      ((WriteHandle.mutate addMutator initWH initSys 5).2.nodes =
          initSys.nodes ∧
        (WriteHandle.mutate addMutator initWH initSys 5).2.counters =
          initSys.counters ∧
        (WriteHandle.mutate addMutator initWH initSys 5).2.readValue
            initRH.inner = initSys.readValue initRH.inner ∧
        (WriteHandle.mutate addMutator initWH initSys 5).1.as_ref
            (WriteHandle.mutate addMutator initWH initSys 5).2 =
          (initWH.as_ref initSys).map (addMutator.apply_operation · 5)) :=
  ⟨by decide, mutate_frame addMutator initWH initSys 5 initRH (by decide)⟩

/-- C5 (evaluating the code at the failing input): node destruction through
`Drop for ReadHandleInner` frees the buffer only when `compare_exchange(1, 0)`
on the shared allocation-owner counter succeeds, and the failure path performs
no decrement.  A one-node lineage (counter 1) frees its buffer exactly once,
but destroying both nodes of a two-node lineage (counter 2) frees it zero
times and leaves the counter at 2, and a three-node lineage likewise never
frees it. -/
theorem drop_lineage_free_count_eval :
    dropNodes 1 1 = (0, 1) ∧ dropReadHandleInner 2 = (2, false) ∧
      dropNodes 2 2 = (2, 0) ∧ dropNodes 3 3 = (3, 0) := by
  decide

/-- A node update by an `f` that keeps the `reader_pointer` field leaves every
node's visible pointer unchanged. -/
theorem nodePtr_setNode_keep {V : Type} (s : Sys V) (i : Nat) (f : Node → Node)
    (hp : ∀ n, (f n).reader_pointer = n.reader_pointer) (k : Nat) :
    (s.setNode i f).nodePtr k = s.nodePtr k := by
  unfold Sys.nodePtr
  rcases eq_or_ne i k with rfl | hik
  · rw [get?_setNode_self]
    cases s.nodes.get? i <;> simp [hp]
  · rw [get?_setNode_ne _ _ hik]

/-- Bumping a node's epoch adds one to exactly that node's epoch counter. -/
theorem epochOf_increaseCounter {V : Type} (s : Sys V) (i : Nat) :
    (s.increaseCounter i).epochOf i = (s.epochOf i).map (· + 1) := by
  unfold Sys.epochOf Sys.increaseCounter
  rw [get?_setNode_self]
  cases s.nodes.get? i <;> rfl

/-- Bumping a node's epoch leaves every node's visible pointer unchanged. -/
theorem nodePtr_increaseCounter {V : Type} (s : Sys V) (i k : Nat) :
    (s.increaseCounter i).nodePtr k = s.nodePtr k :=
  nodePtr_setNode_keep s i
    (fun nd => { nd with epoch_counter := nd.epoch_counter + 1 })
    (fun _ => rfl) k

/-- The number of reads mid-flight through a handle's node: a handle is used
from one thread at a time, so its nested reads collapse to at most one
outstanding read per node. -/
def midFlight (rh : ReadHandle) : Nat := if rh.ref_counter = 0 then 0 else 1

/-- The epoch-parity invariant of a handle and its node: the epoch is even
exactly when no read is mid-flight through the node and odd exactly when one
read is mid-flight. -/
def EpochInv {V : Type} (s : Sys V) (rh : ReadHandle) : Prop :=
  ∃ e, s.epochOf rh.inner = some e ∧ e % 2 = midFlight rh

/-- C3: the epoch-parity invariant (even ⇔ no read mid-flight through the
node, odd ⇔ exactly one) is preserved by every `reference` call and by every
guard release; a `reference` entering at nesting count zero flips the epoch to
odd, a release bringing the count back to zero flips it back to even, and
nested `reference` calls and releases (count staying nonzero) leave the epoch
unchanged. -/
theorem epoch_parity_invariant {V : Type} (s : Sys V) (rh : ReadHandle)
    (hinv : EpochInv s rh) :
    (∀ g rh' s', rh.reference s = some (g, rh', s') →
        EpochInv s' rh' ∧
          (rh.ref_counter ≠ 0 → s'.epochOf rh.inner = s.epochOf rh.inner)) ∧
      (rh.ref_counter ≠ 0 →
        EpochInv (guardDrop rh s).2 (guardDrop rh s).1 ∧
          (2 ≤ rh.ref_counter →
            (guardDrop rh s).2.epochOf rh.inner = s.epochOf rh.inner)) := by
  obtain ⟨e, he, hpar⟩ := hinv
  constructor
  · intro g rh' s' href
    simp only [ReadHandle.reference] at href
    split at href
    · exact absurd href (by simp)
    · simp only [Option.some.injEq, Prod.mk.injEq] at href
      obtain ⟨hg, hrh, hs⟩ := href
      subst hrh
      subst hs
      by_cases h0 : rh.ref_counter = 0
      · rw [if_pos h0]
        refine ⟨⟨e + 1, ?_, ?_⟩, fun hne => absurd h0 hne⟩
        · rw [epochOf_increaseCounter, he]
          rfl
        · have h1 : midFlight rh = 0 := by simp [midFlight, h0]
          have h2 : midFlight { rh with ref_counter := rh.ref_counter + 1 }
              = 1 := by simp [midFlight]
          rw [h2]
          omega
      · rw [if_neg h0]
        refine ⟨⟨e, he, ?_⟩, fun _ => rfl⟩
        have h1 : midFlight rh = 1 := by simp [midFlight, h0]
        have h2 : midFlight { rh with ref_counter := rh.ref_counter + 1 }
            = 1 := by simp [midFlight]
        rw [h2, hpar, h1]
  · intro hnz
    simp only [guardDrop]
    by_cases h1 : rh.ref_counter - 1 = 0
    · rw [if_pos h1]
      refine ⟨⟨e + 1, ?_, ?_⟩, fun h2 => absurd h1 (by omega)⟩
      · rw [epochOf_increaseCounter, he]
        rfl
      · have hm : midFlight rh = 1 := by simp [midFlight, hnz]
        have hm' : midFlight { rh with ref_counter := rh.ref_counter - 1 }
            = 0 := by simp [midFlight, h1]
        rw [hm']
        omega
    · rw [if_neg h1]
      refine ⟨⟨e, he, ?_⟩, fun _ => rfl⟩
      have hm : midFlight rh = 1 := by simp [midFlight, hnz]
      have hm' : midFlight { rh with ref_counter := rh.ref_counter - 1 }
          = 1 := by simp [midFlight, h1]
      rw [hm', hpar, hm]

/-- Witness for C3 at the concretely constructed state. -/
theorem epoch_parity_invariant_witness :
    EpochInv initSys initRH ∧
      ((∀ g rh' s', initRH.reference initSys = some (g, rh', s') →
          EpochInv s' rh' ∧
            (initRH.ref_counter ≠ 0 →
              s'.epochOf initRH.inner = initSys.epochOf initRH.inner)) ∧
        (initRH.ref_counter ≠ 0 →
          EpochInv (guardDrop initRH initSys).2 (guardDrop initRH initSys).1 ∧
            (2 ≤ initRH.ref_counter →
              (guardDrop initRH initSys).2.epochOf initRH.inner =
                initSys.epochOf initRH.inner))) :=
  ⟨⟨0, rfl, rfl⟩, epoch_parity_invariant initSys initRH ⟨0, rfl, rfl⟩⟩

/-- C7: the value a guard exposes is fixed at acquisition time: it equals the
value visible through the handle's node when `reference` ran, `Deref` and
`AsRef` agree on it, and it is unchanged by any later broadcast that swaps
node pointers while the guard is alive — the guard never re-reads the node's
pointer. -/
theorem guard_value_fixed_at_acquisition {V : Type} (rh : ReadHandle)
    (s : Sys V) (g : Guard) (rh' : ReadHandle) (s' s'' : Sys V)
    (p fuel : Nat) (r : Option Nat)
    (href : rh.reference s = some (g, rh', s'))
    (hupd : updateReaderPointers p s' fuel r = some s'') :
    g.deref s'' = g.deref s' ∧ g.as_ref s'' = g.deref s'' ∧
      g.deref s' = s.readValue rh.inner := by
  have hbufs : s''.bufs = s'.bufs :=
    (updateReaderPointers_same p fuel r s' s'' hupd).1
  refine ⟨?_, rfl, ?_⟩
  · unfold Guard.deref
    rw [hbufs]
  · simp only [ReadHandle.reference] at href
    split at href
    · exact absurd href (by simp)
    · simp only [Option.some.injEq, Prod.mk.injEq] at href
      obtain ⟨hg, _, hs⟩ := href
      subst hg
      subst hs
      by_cases h0 : rh.ref_counter = 0
      · rw [if_pos h0]
        unfold Guard.deref Sys.readValue
        rw [nodePtr_increaseCounter]
        rfl
      · rw [if_neg h0]
        rfl

/-- The guard captured by the first read on the constructed state. -/
def guardW : Guard := { buf := some 0 }

/-- The reader handle after the first read on the constructed state. -/
def rhW : ReadHandle := { inner := 0, ref_counter := 1 }

/-- The state after the first read on the constructed state: epoch bumped. -/
def sysW : Sys Nat :=
  { bufs := [0, 0],
    nodes := [{ reader_pointer := some 0, epoch_counter := 1,
                is_active := true, reader_counter := 0, next := none }],
    counters := [1] }

/-- `sysW` after a broadcast swapping the node's pointer to buffer 1. -/
def sysW2 : Sys Nat :=
  { bufs := [0, 0],
    nodes := [{ reader_pointer := some 1, epoch_counter := 1,
                is_active := true, reader_counter := 0, next := none }],
    counters := [1] }

/-- Witness for C7: a guard taken on the constructed state, then a broadcast
swapping the node's pointer to buffer 1; the guard's value is unmoved. -/
theorem guard_value_fixed_at_acquisition_witness :
    initRH.reference initSys = some (guardW, rhW, sysW) ∧
      updateReaderPointers 1 sysW 2 (some 0) = some sysW2 ∧
      (guardW.deref sysW2 = guardW.deref sysW ∧
        guardW.as_ref sysW2 = guardW.deref sysW2 ∧
        guardW.deref sysW = initSys.readValue initRH.inner) :=
  ⟨by decide, by decide,
   guard_value_fixed_at_acquisition initRH initSys guardW rhW sysW sysW2 1 2
     (some 0) (by decide) (by decide)⟩

/-- C4: with every reachable reader node dead (all reader handles dropped)
and a non-empty staged log, `publish` still performs step 5: it swaps the
front and back buffer indices, drains the staged log, and replays every
staged operation in original order onto the buffer that became stale, while
the loop bodies of steps 2–4 iterate zero times — the node and counter stores
come back untouched and the head-pruning leaves no root. -/
theorem publish_all_dead_still_swaps {V Op : Type} (M : Mutator V Op)
    (wh : WriteHandle Op) (s : Sys V) (r0 : Nat) (l : List Nat)
    (hri : wh.read_handle_inner = some r0)
    (hne : wh.operations_log.isEmpty = false)
    (hch : s.chain (s.nodes.length + 1) (some r0) = some l)
    (hdead : ∀ k ∈ l, s.isActive k = false) :
    WriteHandle.publish M wh s =
      some ({ writer_pointer := wh.reader_pointer,
              reader_pointer := wh.writer_pointer,
              operations_log := [], read_handle_inner := none },
            { s with bufs := (listModify s.bufs wh.reader_pointer
                (fun d => wh.operations_log.foldl M.apply_operation d)) }) := by
  have hrfd : removeFirstDeadReaders s (s.nodes.length + 1) (some r0) =
      some none := removeFirstDeadReaders_allDead _ _ s l hch hdead
  simp only [WriteHandle.publish, hri, hne]
  rw [hrfd]
  simp only [Option.some_bind, updateReaderPointers, getEpochCounters,
    waitEpochCounters]
  rfl

/-- The writer handle of the C4 witness: one staged operation, root node 0. -/
def whD : WriteHandle Nat :=
  { writer_pointer := 1, reader_pointer := 0, operations_log := [7],
    read_handle_inner := some 0 }

/-- The state of the C4 witness: the only reader handle was dropped, then
`mutate(7)` ran. -/
def sysD : Sys Nat :=
  { bufs := [0, 7],
    nodes := [{ reader_pointer := some 0, epoch_counter := 0,
                is_active := false, reader_counter := 0, next := none }],
    counters := [1] }

/-- Witness for C4: the dropped-reader state still gets its buffers swapped
and the staged operation replayed. -/
theorem publish_all_dead_still_swaps_witness :
    whD.read_handle_inner = some 0 ∧ whD.operations_log.isEmpty = false ∧
      sysD.chain (sysD.nodes.length + 1) (some 0) = some [0] ∧
      (∀ k ∈ [0], sysD.isActive k = false) ∧
      WriteHandle.publish addMutator whD sysD =
        some ({ writer_pointer := whD.reader_pointer,
                reader_pointer := whD.writer_pointer,
                operations_log := [], read_handle_inner := none },
              { sysD with bufs := (listModify sysD.bufs whD.reader_pointer
                  (fun d => whD.operations_log.foldl
                    addMutator.apply_operation d)) }) :=
  ⟨rfl, rfl, by decide,
   by intro k hk; rw [List.mem_singleton] at hk; subst hk; rfl,
   publish_all_dead_still_swaps addMutator whD sysD 0 [0] rfl rfl (by decide)
     (by intro k hk; rw [List.mem_singleton] at hk; subst hk; rfl)⟩

/-- C8: `clone_as_ptr` resolves the fresh node's placeholder (one
compare-and-swap from null) to the origin's currently observed pointer, so
the clone observes the same value as its origin at clone time; and any
subsequent successful publish broadcasts the same buffer to the origin and
the clone alike, so the published value is visible to both identically. -/
theorem clone_same_value_and_publish_visible {V Op : Type} (M : Mutator V Op)
    (wh wh' : WriteHandle Op) (s s₂ s₃ : Sys V) (i j : Nat)
    (root : Option Nat) (l : List Nat)
    (hclone : s.cloneAsPtr i = some (s₂, j))
    (hne : wh.operations_log.isEmpty = false)
    (hrfd : removeFirstDeadReaders s₂ (s₂.nodes.length + 1)
        wh.read_handle_inner = some root)
    (hch : s₂.chain (s₂.nodes.length + 1) root = some l)
    (hi : i ∈ l) (hj : j ∈ l)
    (hpub : WriteHandle.publish M wh s₂ = some (wh', s₃)) :
    s₂.nodePtr j = s₂.nodePtr i ∧ s₂.readValue j = s₂.readValue i ∧
      s₃.nodePtr i = some wh.writer_pointer ∧
      s₃.nodePtr j = some wh.writer_pointer ∧
      s₃.readValue i = s₃.readValue j := by
  obtain ⟨hpj, hpi, _, _⟩ := cloneAsPtr_spec s i s₂ j hclone
  have h1 : s₂.nodePtr j = s₂.nodePtr i := hpj.trans hpi.symm
  cases hri : wh.read_handle_inner with
  | none =>
    rw [hri] at hrfd
    simp only [removeFirstDeadReaders, Option.some.injEq] at hrfd
    subst hrfd
    simp only [Sys.chain, Option.some.injEq] at hch
    subst hch
    exact absurd hi (List.not_mem_nil i)
  | some r0 =>
    rw [hri] at hrfd
    simp only [WriteHandle.publish, hri, hne] at hpub
    rw [hrfd] at hpub
    simp only [Option.some_bind] at hpub
    rcases Option.bind_eq_some.mp hpub with ⟨s1, hupd, hpub2⟩
    rcases Option.bind_eq_some.mp hpub2 with ⟨ec, _, hpub3⟩
    rcases Option.bind_eq_some.mp hpub3 with ⟨s2', hwait, hfin⟩
    simp only [Option.some.injEq, Prod.mk.injEq] at hfin
    obtain ⟨_, hs₃⟩ := hfin
    subst hs₃
    have hmem := updateReaderPointers_mem wh.writer_pointer
      (s₂.nodes.length + 1) root s₂ s1 l hch hupd
    have hwsame := waitEpochCounters_same ec (s₂.nodes.length + 1) root s1 s2'
      hwait
    have hptr : ∀ k ∈ l, s2'.nodePtr k = some wh.writer_pointer := by
      intro k hk
      exact ((hwsame.2.2.2 k).1).trans (hmem k hk)
    have hfi : s2'.nodePtr i = some wh.writer_pointer := hptr i hi
    have hfj : s2'.nodePtr j = some wh.writer_pointer := hptr j hj
    refine ⟨h1, ?_, hfi, hfj, ?_⟩
    · unfold Sys.readValue
      rw [h1]
    · unfold Sys.readValue
      show (s2'.nodePtr i).bind _ = (s2'.nodePtr j).bind _
      rw [hfi, hfj]

/-- The writer handle of the C8 witness: `mutate(5)` already staged. -/
def whC8 : WriteHandle Nat :=
  { writer_pointer := 1, reader_pointer := 0, operations_log := [5],
    read_handle_inner := some 0 }

/-- The C8 witness state before cloning: constructed over 0, then
`mutate(5)`. -/
def sysC8 : Sys Nat :=
  { bufs := [0, 5],
    nodes := [{ reader_pointer := some 0, epoch_counter := 0,
                is_active := true, reader_counter := 0, next := none }],
    counters := [1] }

/-- `sysC8` after cloning the reader handle: fresh node 1 linked after the
root with its placeholder resolved, shared counter bumped. -/
def sysC8b : Sys Nat :=
  { bufs := [0, 5],
    nodes := [{ reader_pointer := some 0, epoch_counter := 0,
                is_active := true, reader_counter := 0, next := some 1 },
              { reader_pointer := some 0, epoch_counter := 0,
                is_active := true, reader_counter := 0, next := none }],
    counters := [2] }

/-- `sysC8b` after the publish: both nodes read buffer 1 and the staged
operation was replayed onto buffer 0. -/
def sysC8c : Sys Nat :=
  { bufs := [5, 5],
    nodes := [{ reader_pointer := some 1, epoch_counter := 0,
                is_active := true, reader_counter := 0, next := some 1 },
              { reader_pointer := some 1, epoch_counter := 0,
                is_active := true, reader_counter := 0, next := none }],
    counters := [2] }

/-- The writer handle after the C8 witness publish: buffers swapped, log
drained. -/
def whC8' : WriteHandle Nat :=
  { writer_pointer := 0, reader_pointer := 1, operations_log := [],
    read_handle_inner := some 0 }

/-- Witness for C8: clone after one staged mutation, then publish; origin
(node 0) and clone (node 1) observe the same value throughout. -/
theorem clone_same_value_and_publish_visible_witness :
    sysC8.cloneAsPtr 0 = some (sysC8b, 1) ∧
      whC8.operations_log.isEmpty = false ∧
      removeFirstDeadReaders sysC8b (sysC8b.nodes.length + 1)
          whC8.read_handle_inner = some (some 0) ∧
      sysC8b.chain (sysC8b.nodes.length + 1) (some 0) = some [0, 1] ∧
      WriteHandle.publish addMutator whC8 sysC8b = some (whC8', sysC8c) ∧
      (sysC8b.nodePtr 1 = sysC8b.nodePtr 0 ∧
        sysC8b.readValue 1 = sysC8b.readValue 0 ∧
        sysC8c.nodePtr 0 = some whC8.writer_pointer ∧
        sysC8c.nodePtr 1 = some whC8.writer_pointer ∧
        sysC8c.readValue 0 = sysC8c.readValue 1) :=
  ⟨by decide, rfl, by decide, by decide, by decide,
   clone_same_value_and_publish_visible addMutator whC8 whC8' sysC8 sysC8b
     sysC8c 0 1 (some 0) [0, 1] (by decide) rfl (by decide) (by decide)
     (by decide) (by decide) (by decide)⟩

/-- C1: starting from handles constructed over `v`, after any sequence of
`mutate(op_1), …, mutate(op_n)` calls followed by one `publish()` (all with
the default no-op log-extension step), the reader handle's next `reference`
returns a guard whose value equals the writer's own current value at the time
`publish` returned, namely `v` with `op_1 … op_n` applied in order. -/
theorem mutate_publish_reader_sees_writer {V Op : Type} (M : Mutator V Op)
    (Hlog : ∀ (op : Op) (l : List Op), M.mutate_log op l = l)
    (v : V) (ops : List Op) (rh : ReadHandle) (wh wh1 : WriteHandle Op)
    (s s1 : Sys V)
    (hcreate : createHandles Op v = (rh, wh, s))
    (hmut : runMutates M (wh, s) ops = (wh1, s1)) :
    ∃ wh2 s2 g rh2 s3,
      WriteHandle.publish M wh1 s1 = some (wh2, s2) ∧
        rh.reference s2 = some (g, rh2, s3) ∧
        g.deref s3 = wh2.as_ref s2 ∧
        g.deref s3 = some (ops.foldl M.apply_operation v) := by
  unfold createHandles at hcreate
  simp only [Prod.mk.injEq] at hcreate
  obtain ⟨h1, h2, h3⟩ := hcreate
  subst h1
  subst h2
  subst h3
  rw [runMutates_two M Hlog] at hmut
  simp only [List.nil_append, Prod.mk.injEq] at hmut
  obtain ⟨h4, h5⟩ := hmut
  subst h4
  subst h5
  cases ops with
  | nil => exact ⟨_, _, _, _, _, rfl, rfl, rfl, rfl⟩
  | cons op os => exact ⟨_, _, _, _, _, rfl, rfl, rfl, rfl⟩

/-- Witness for C1: value 0, operations `[1, 2]`, with the concrete additive
mutator (whose log-extension step is the default no-op). -/
theorem mutate_publish_reader_sees_writer_witness :
    (∀ (op : Nat) (l : List Nat), addMutator.mutate_log op l = l) ∧
      createHandles Nat 0 = (initRH, initWH, initSys) ∧
      (∃ wh2 s2 g rh2 s3,
        WriteHandle.publish addMutator
            (runMutates addMutator (initWH, initSys) [1, 2]).1
            (runMutates addMutator (initWH, initSys) [1, 2]).2 =
            some (wh2, s2) ∧
          initRH.reference s2 = some (g, rh2, s3) ∧
          g.deref s3 = wh2.as_ref s2 ∧
          g.deref s3 = some ([1, 2].foldl addMutator.apply_operation 0)) :=
  ⟨fun _ _ => rfl, rfl,
   mutate_publish_reader_sees_writer addMutator (fun _ _ => rfl) 0 [1, 2]
     initRH initWH _ initSys _ rfl rfl⟩

end LeftRightStruct
